import Mathlib

/-!
Verification of the `echo-fetch` download engine (`src/echo_core.py`,
class `FastDownloader`) against its natural-language specification.

The Python source is shallowly embedded below.  Machine integers are
`Nat`/`Int` (Python integers are unbounded, so no wrap-around modelling is
needed).  The filesystem is a finite map from resolved absolute paths to
byte lists; a path is a pair `(directory, file name)`, where the directory
component of a relative Python path is the process working directory
(`os.getcwd()`), and `self.download_path` is always an absolute directory
(the constructor applies `os.path.abspath`, defaulting to the working
directory).  The HTTP server for ranged requests is modelled as a function
from byte offset to byte value.
-/

/-- Source constant `MAX_RETRIES = 10` (echo_core.py line 8). -/
def MAX_RETRIES : Nat := 10

/-- Source constant `RETRY_DELAY = 2` seconds (echo_core.py line 9). -/
def RETRY_DELAY : Nat := 2

/-- Embedding of `FastDownloader.choose_optimal_threads` (echo_core.py lines
154-178).  `cores` is the value of `psutil.cpu_count(logical=True) or 4`. -/
def choose_optimal_threads (file_size_bytes default_threads cores : Nat) : Nat :=
  if file_size_bytes = 0 then 1
  else
    let suggested_threads :=
      if file_size_bytes < 10 * 1024 * 1024 then 2
      else if file_size_bytes < 50 * 1024 * 1024 then 4
      else if file_size_bytes < 500 * 1024 * 1024 then 8
      else min 16 default_threads
    let suggested_threads :=
      if cores ≤ 2 then min suggested_threads 4
      else if cores ≤ 4 then min suggested_threads 8
      else suggested_threads
    min suggested_threads default_threads

/-- The size-tiered worker suggestion as the specification words it
(spec section 4.2, table); for sizes of at least 500 MB the suggestion is
`min 16 requested`. -/
def tier_suggestion (S N : Nat) : Nat :=
  if S < 10 * 1024 * 1024 then 2
  else if S < 50 * 1024 * 1024 then 4
  else if S < 500 * 1024 * 1024 then 8
  else min 16 N

/-- The CPU-core cap as the specification words it: at most 2 cores cap at
4 workers, at most 4 cores cap at 8; more cores impose no cap (16 is an
upper bound of every tier suggestion, so it acts as "no cap"). -/
def core_cap (C : Nat) : Nat :=
  if C ≤ 2 then 4 else if C ≤ 4 then 8 else 16

/-- Worker `i` range start, `start = i * self.part_size`
(echo_core.py line 411); `ps` is `self.part_size = file_size // num_threads`
(line 96). -/
def part_start (ps i : Nat) : Int := (i : Int) * (ps : Int)

/-- Worker `i` range end (echo_core.py lines 412-415): the last worker ends
at `file_size - 1`, every other worker at `start + part_size - 1`. -/
def part_end (S n ps i : Nat) : Int :=
  if i = n - 1 then (S : Int) - 1 else part_start ps i + (ps : Int) - 1

/-- A resolved filesystem path: directory (absolute) and file name.
A relative Python path such as `self.filename` resolves to the pair
`(cwd, name)`; `os.path.join(self.download_path, name)` resolves to
`(download_path, name)`. -/
abbrev FPath := String × String

/-- The filesystem: a map from resolved paths to file contents (byte lists,
each byte a `Nat`).  `none` means the file does not exist. -/
abbrev FS := FPath → Option (List Nat)

/-- Writing (or overwriting) a whole file. -/
def fsWrite (fs : FS) (p : FPath) (c : List Nat) : FS :=
  fun q => if q = p then some c else fs q

/-- Removing a file (`os.remove`). -/
def fsRemove (fs : FS) (p : FPath) : FS :=
  fun q => if q = p then none else fs q

/-- Part-file name `f"{self.filename}.part{part_index}"`
(echo_core.py lines 183/186). -/
def partName (filename : String) (i : Nat) : String :=
  filename ++ ".part" ++ toString i

/-- The bytes a range request `Range: bytes=a-b` returns: the resource's
bytes at offsets `a .. b` inclusive (`res` maps offset to byte value). -/
def rangeBytes (res : Nat → Nat) (a b : Int) : List Nat :=
  (List.range (b - a + 1).toNat).map (fun j => res (a.toNat + j))

/-- Embedding of `FastDownloader.download_part` on its transport-success
path (echo_core.py lines 180-248): the resume check against the existing
part file (lines 191-200) and, when the range is not already covered, one
ranged request starting at `start + downloaded` whose bytes are appended
to the part file (`open(part_file, "ab")`, lines 202-226).  Retry
behaviour on transport failure is modelled separately by
`download_part_retry`. -/
def download_part_fs (res : Nat → Nat) (dp fn : String) (start_ end_ : Int)
    (part_index : Nat) (fs : FS) : FS :=
  let part : FPath := (dp, partName fn part_index)
  match fs part with
  | some existing =>
    if start_ + (existing.length : Int) ≥ end_ then fs
    else fsWrite fs part
      (existing ++ rangeBytes res (start_ + (existing.length : Int)) end_)
  | none =>
    if (0 : Int) < end_ - start_ + 1 then fsWrite fs part (rangeBytes res start_ end_)
    else fs

/-- One network attempt inside the retry loop of `download_part`:
the attempt writes `delivered` bytes to the part file and then either
raises (`failure = some message`) or finishes cleanly (`failure = none`). -/
structure Attempt where
  delivered : Nat
  failure : Option String
deriving DecidableEq

/-- Outcome of the retry loop of `download_part`: bytes downloaded in
total, exception messages appended to the shared `self.exceptions` list,
and the sequence of sleeps performed between attempts. -/
structure PartLoopResult where
  downloaded : Nat
  recorded : List String
  delays : List Nat
deriving DecidableEq

/-- Embedding of the `while`/`except` retry skeleton of
`FastDownloader.download_part` (echo_core.py lines 202-263).  `attempts k`
is the behaviour of the network attempt made when the retry counter is
`k`; `len` is the range length `end - start + 1`; `fuel` bounds the
recursion and is sound for any value of at least `MAX_RETRIES - retries`,
since each failing iteration increments `retries` and the loop stops when
`retries` reaches `MAX_RETRIES`. -/
def download_part_retry (attempts : Nat → Attempt) (len : Nat) :
    Nat → Nat → Nat → List Nat → PartLoopResult
  | 0, downloaded, _, delays => ⟨downloaded, [], delays⟩
  | fuel + 1, downloaded, retries, delays =>
    if downloaded < len ∧ retries < MAX_RETRIES then
      match (attempts retries).failure with
      | none => ⟨downloaded + (attempts retries).delivered, [], delays⟩
      | some e =>
        if retries + 1 ≥ MAX_RETRIES then
          ⟨downloaded + (attempts retries).delivered, [e], delays⟩
        else
          download_part_retry attempts len fuel
            (downloaded + (attempts retries).delivered) (retries + 1)
            (delays ++ [RETRY_DELAY])
    else ⟨downloaded, [], delays⟩

/-- Sum of the bytes delivered by attempts `r, r+1, ..., r+fuel-1`. -/
def deliveredSum (attempts : Nat → Attempt) : Nat → Nat → Nat
  | _, 0 => 0
  | r, fuel + 1 => (attempts r).delivered + deliveredSum attempts (r + 1) fuel

/-- The loop body of `FastDownloader.merge_parts` (echo_core.py lines
290-312), one iteration per part index: look the part up under the
download path; when absent, fall back to the bare relative name (resolved
in the working directory, lines 299-307) and abort with `False` when that
is missing too; otherwise append the part's bytes to the open temporary
file and `os.remove` the consumed part. -/
def merge_loop (dp cwd fn : String) (fs : FS) : List Nat → Bool × FS
  | [] => (true, fs)
  | i :: rest =>
    let pname := partName fn i
    let tkey : FPath := (dp, fn ++ ".temp")
    match fs (dp, pname) with
    | some c =>
      merge_loop dp cwd fn
        (fsRemove (fsWrite fs tkey (((fs tkey).getD []) ++ c)) (dp, pname)) rest
    | none =>
      match fs (cwd, pname) with
      | some c =>
        merge_loop dp cwd fn
          (fsRemove (fsWrite fs tkey (((fs tkey).getD []) ++ c)) (cwd, pname)) rest
      | none => (false, fs)

/-- Embedding of `FastDownloader.merge_parts` (echo_core.py lines 273-345)
with `self.download_path` set (it always is: the constructor defaults it
to the working directory and makes it absolute).  Opens
`<downloadPath>/<filename>.temp` for writing (truncating it), runs the
part loop, and on success removes any pre-existing final file and renames
the temporary file onto `<downloadPath>/<filename>`. -/
def merge_parts (fs : FS) (dp cwd fn : String) (num_threads : Nat) : Bool × FS :=
  let tkey : FPath := (dp, fn ++ ".temp")
  let fs0 := fsWrite fs tkey []
  match merge_loop dp cwd fn fs0 (List.range num_threads) with
  | (false, fs1) => (false, fs1)
  | (true, fs1) =>
    let tcontent := (fs1 tkey).getD []
    (true, fsWrite (fsRemove fs1 tkey) (dp, fn) tcontent)

/-- Embedding of `FastDownloader.download_single_thread` (echo_core.py
lines 347-398).  `net` is the outcome of the unranged `GET`: an error for
a 403 or `raise_for_status` failure (raised before any write), or the
response body.  Despite computing `output_file` from the download path,
the source writes the body to `open(self.filename, "wb")` (line 370), a
relative path that resolves in the working directory. -/
def download_single_thread (fs : FS) (cwd fn : String)
    (net : Except String (List Nat)) : FS × Except String Unit :=
  match net with
  | Except.error e => (fs, Except.error e)
  | Except.ok body => (fsWrite fs (cwd, fn) body, Except.ok ())

/-- Embedding of the tail of `FastDownloader.start` after the join barrier
(echo_core.py lines 427-448): raise the first recorded worker exception if
any; otherwise merge when more than one worker ran, then verify the size
of `os.path.exists(self.filename)` — the bare relative name, resolved in
the working directory, not the merged file at the download path — and on a
size mismatch fall back to `download_single_thread`. -/
def start_after_join (exceptions : List String) (num_threads file_size : Nat)
    (dp cwd fn : String) (fs : FS) (net : Except String (List Nat)) :
    FS × Except String Unit :=
  match exceptions with
  | e :: _ => (fs, Except.error e)
  | [] =>
    if 1 < num_threads then
      match merge_parts fs dp cwd fn num_threads with
      | (true, fs1) =>
        if (fs1 (cwd, fn)).isSome then
          let final_size := ((fs1 (cwd, fn)).getD []).length
          if 0 < file_size ∧ final_size ≠ file_size then
            download_single_thread fs1 cwd fn net
          else (fs1, Except.ok ())
        else (fs1, Except.error ("Final file not created at " ++ dp ++ "/" ++ fn))
      | (false, fs1) => (fs1, Except.error "Merging parts failed")
    else (fs, Except.ok ())

/-- Embedding of `FastDownloader.start` (echo_core.py lines 400-457) with
every worker on its transport-success path (so no exceptions are
recorded; failing workers are modelled by `download_part_retry` and
`start_after_join`).  Single-stream when range support is absent or the
size is unknown; otherwise each worker `i` materialises the range
`[part_start, part_end]` into its part file, then the post-join phase
runs. -/
def start_model (res : Nat → Nat) (dp cwd fn : String) (file_size : Nat)
    (range_supported : Bool) (num_threads part_size : Nat) (fs : FS)
    (net : Except String (List Nat)) : FS × Except String Unit :=
  if range_supported = false ∨ file_size = 0 then
    download_single_thread fs cwd fn net
  else
    let fs1 := (List.range num_threads).foldl
      (fun acc i =>
        download_part_fs res dp fn (part_start part_size i)
          (part_end file_size num_threads part_size i) i acc) fs
    start_after_join [] num_threads file_size dp cwd fn fs1 net

/-- The header fields of an HTTP response that `FastDownloader.__init__`
reads.  `contentLength` is the integer value of the `Content-Length`
header, `contentRangeTotal` the total after the slash in a
`Content-Range: bytes a-b/total` header, `acceptRanges` the value of
`Accept-Ranges` (the source defaults it to the empty string). -/
structure Response where
  status : Nat
  contentLength : Option Nat
  contentRangeTotal : Option Nat
  acceptRanges : String
deriving DecidableEq

/-- Result of the probing part of the constructor: probed total size,
range-support flag and worker count. -/
structure ProbeResult where
  file_size : Nat
  range_supported : Bool
  num_threads : Nat
deriving DecidableEq

/-- The tail of `FastDownloader.__init__` after `self.file_size` is set
(echo_core.py lines 67-98): worker count from `choose_optimal_threads`,
range support from the `Accept-Ranges` header of `response` (the response
the size was taken from), then — when that header is absent and the size
is positive — from a probing `Range: bytes=0-0` request whose response is
`test`; a failed test resets the worker count to 1, as does a final check
that range support and a positive size hold together. -/
def probe_tail (response test : Response) (file_size default_threads cores : Nat) :
    ProbeResult :=
  let num_threads :=
    if 0 < file_size then choose_optimal_threads file_size default_threads cores else 1
  let range_supported := response.acceptRanges = "bytes"
  let range_supported2 :=
    if ¬range_supported ∧ 0 < file_size then test.status = 206 else range_supported
  let num_threads2 :=
    if (¬range_supported ∧ 0 < file_size) ∧ ¬(test.status = 206) then 1 else num_threads
  if range_supported2 ∧ 0 < file_size then ⟨file_size, range_supported2, num_threads2⟩
  else ⟨file_size, range_supported2, 1⟩

/-- Embedding of the probing prefix of `FastDownloader.__init__`
(echo_core.py lines 45-98) on the flow where every request returns a
response.  `head` answers the metadata `HEAD` request; when it is a 403
the source issues the 1-byte ranged fallback `GET` twice (lines 52 and
56), answered by `get1` (discarded) and `get2`, and takes
`self.file_size` from `int(response.headers.get("Content-Length", 0))` of
`get2`; `test` answers the later `Range: bytes=0-0` probe of line 88 when
it is made.  For a non-403 error status, `raise_for_status` raises
(line 63); the `requests.RequestException` recovery path of lines 100-125
is outside the claims and not modelled, so that case is an error here. -/
def probe_init (head get1 get2 test : Response) (default_threads cores : Nat) :
    Except String ProbeResult :=
  if head.status = 403 then
    if get2.status = 200 ∨ get2.status = 206 then
      Except.ok (probe_tail get2 test (get2.contentLength.getD 0) default_threads cores)
    else Except.error ("Server returned " ++ toString get2.status)
  else if 400 ≤ head.status then Except.error "HTTPError"
  else Except.ok (probe_tail head test (head.contentLength.getD 0) default_threads cores)

/-- Embedding of `FastDownloader._extract_file_size` (echo_core.py lines
127-139): prefer `Content-Length`, otherwise the total of a
`Content-Range` header.  The 403 fallback path above never calls it. -/
def extract_file_size (response : Response) : Nat :=
  match response.contentLength with
  | some size => size
  | none =>
    match response.contentRangeTotal with
    | some total => total
    | none => 0

/-- Filesystem for the C7 counterexample: `f.part0` is missing from the
download path `/d` but a file of the same name sits in the working
directory `/c`; `f.part1` is present under `/d`. -/
def fsMissingDp : FS := fun p =>
  if p = ("/c", partName "f" 0) then some [9, 8]
  else if p = ("/d", partName "f" 1) then some [7] else none

/-- Filesystem for the C2 counterexample: both parts are present under
the download path `/d`, which differs from the working directory `/c`;
their merged size is 5, while the probed size will be 10. -/
def fsParts : FS := fun p =>
  if p = ("/d", partName "f" 0) then some [0, 1, 2]
  else if p = ("/d", partName "f" 1) then some [3, 4] else none

/-- Filesystem for the C2 amended witness: two parts under the working
directory `/c`, which also serves as the download path; merged size 2. -/
def fsPartsCwd : FS := fun p =>
  if p = ("/c", partName "f" 0) then some [1]
  else if p = ("/c", partName "f" 1) then some [2] else none

/-- Every tier suggestion is at most 16. -/
theorem tier_suggestion_le_16 (S N : Nat) : tier_suggestion S N ≤ 16 := by
  unfold tier_suggestion
  split_ifs <;> omega

/-- C8: the planner output is the minimum of the tiered suggestion, the
requested bound and the core cap; in particular a 100 MB file on an 8-core
host with requested bound 8 yields 8 workers. -/
theorem choose_optimal_threads_eq_min (S N C : Nat) (hS : 0 < S) :
    choose_optimal_threads S N C = min (tier_suggestion S N) (min N (core_cap C)) ∧
    choose_optimal_threads (100 * 1024 * 1024) 8 8 = 8 := by
  constructor
  · unfold choose_optimal_threads tier_suggestion core_cap
    dsimp only
    split_ifs <;> omega
  · rfl

/-- Witness for C8 at the spec scenario: 100 MB resource, 8 cores,
requested bound 8. -/
theorem choose_optimal_threads_eq_min_witness :
    0 < 100 * 1024 * 1024 ∧
    (choose_optimal_threads (100 * 1024 * 1024) 8 8 =
        min (tier_suggestion (100 * 1024 * 1024)  8) (min 8 (core_cap 8)) ∧
      choose_optimal_threads (100 * 1024 * 1024) 8 8 = 8) :=
  ⟨by norm_num, choose_optimal_threads_eq_min (100 * 1024 * 1024) 8 8 (by norm_num)⟩

/-- C1: for any probed size `S > 0` and worker count `n ≥ 1`, the ranges
computed by `start()` with `part_size = S / n` cover every byte of
`[0, S-1]` exactly once, and the last range ends at `S - 1`. -/
theorem part_ranges_partition (S n : Nat) (hS : 0 < S) (hn : 1 ≤ n) :
    (∀ b : Int, 0 ≤ b → b ≤ (S : Int) - 1 →
      ∃! i : Nat, i < n ∧ part_start (S / n) i ≤ b ∧ b ≤ part_end S n (S / n) i)
    ∧ part_end S n (S / n) (n - 1) = (S : Int) - 1 := by
  constructor
  · intro b hb0 hb1
    obtain ⟨bn, rfl⟩ : ∃ bn : Nat, (bn : Int) = b := ⟨b.toNat, Int.toNat_of_nonneg hb0⟩
    have hbn : bn < S := by exact_mod_cast (by omega : (bn : Int) < (S : Int))
    set q := S / n with hq
    by_cases hq0 : q = 0
    · -- `S < n`: every non-final range is empty, the byte lies in the final one
      refine ⟨n - 1, ⟨by omega, ?_, ?_⟩, ?_⟩
      · simp only [part_start, hq0]
        push_cast
        omega
      · simp only [part_end, if_pos]
        exact hb1
      · rintro j ⟨hjn, hjs, hje⟩
        by_contra hjl
        rw [part_end, if_neg hjl, part_start, hq0] at hje
        push_cast at hje
        omega
    · have hqpos : 0 < q := Nat.pos_of_ne_zero hq0
      by_cases hcase : bn / q < n - 1
      · -- interior byte: the unique covering range is number `bn / q`
        refine ⟨bn / q, ⟨by omega, ?_, ?_⟩, ?_⟩
        · rw [part_start]
          exact_mod_cast Nat.div_mul_le_self bn q
        · rw [part_end, if_neg (by omega : ¬ bn / q = n - 1), part_start]
          have h2 : bn < (bn / q + 1) * q :=
            (Nat.div_lt_iff_lt_mul hqpos).mp (Nat.lt_succ_self _)
          rw [Nat.succ_mul] at h2
          exact Int.le_sub_one_iff.mpr (by exact_mod_cast h2)
        · rintro j ⟨hjn, hjs, hje⟩
          by_cases hjl : j = n - 1
          · exfalso
            rw [hjl, part_start] at hjs
            have hjs' : (n - 1) * q ≤ bn := by exact_mod_cast hjs
            exact hcase.not_le ((Nat.le_div_iff_mul_le hqpos).mpr hjs')
          · rw [part_start] at hjs
            rw [part_end, if_neg hjl, part_start] at hje
            have hjs' : j * q ≤ bn := by exact_mod_cast hjs
            have hje' : bn < (j + 1) * q := by
              rw [Nat.succ_mul]
              exact_mod_cast Int.le_sub_one_iff.mp hje
            exact (Nat.div_eq_of_lt_le hjs' hje').symm ▸ rfl
      · -- tail byte: the unique covering range is the final one
        have hlast : (n - 1) * q ≤ bn :=
          le_trans (Nat.mul_le_mul_right q (by omega : n - 1 ≤ bn / q))
            (Nat.div_mul_le_self bn q)
        refine ⟨n - 1, ⟨by omega, ?_, ?_⟩, ?_⟩
        · rw [part_start]
          exact_mod_cast hlast
        · simp only [part_end, if_pos]
          exact hb1
        · rintro j ⟨hjn, hjs, hje⟩
          by_contra hjl
          rw [part_end, if_neg hjl, part_start] at hje
          have hje' : bn < (j + 1) * q := by
            rw [Nat.succ_mul]
            exact_mod_cast Int.le_sub_one_iff.mp hje
          have hstep : (j + 1) * q ≤ (n - 1) * q :=
            Nat.mul_le_mul_right q (by omega : j + 1 ≤ n - 1)
          have hcontra : bn < (n - 1) * q := lt_of_lt_of_le hje' hstep
          exact absurd hlast (Nat.not_le.mpr hcontra)
  · simp [part_end]

/-- Witness for C1 at `S = 10`, `n = 3` (ranges `[0,2] [3,5] [6,9]`). -/
theorem part_ranges_partition_witness :
    0 < 10 ∧ 1 ≤ 3 ∧
    ((∀ b : Int, 0 ≤ b → b ≤ (10 : Int) - 1 →
        ∃! i : Nat, i < 3 ∧ part_start (10 / 3) i ≤ b ∧ b ≤ part_end 10 3 (10 / 3) i)
      ∧ part_end 10 3 (10 / 3) (3 - 1) = (10 : Int) - 1) :=
  ⟨by norm_num, by norm_num, part_ranges_partition 10 3 (by norm_num) (by norm_num)⟩

/-- A string is never equal to itself with a nonempty suffix appended. -/
theorem fn_ne_append (fn s : String) (hs : 0 < s.length) : fn ≠ fn ++ s := by
  intro h
  have := congrArg String.length h
  rw [String.length_append] at this
  omega

/-- The final file name differs from the merge-staging name. -/
theorem fn_ne_temp (fn : String) : fn ≠ fn ++ ".temp" :=
  fn_ne_append fn ".temp" (by decide)

/-- The final file name differs from every part-file name. -/
theorem fn_ne_part (fn : String) (i : Nat) : fn ≠ partName fn i := by
  rw [partName, String.append_assoc]
  apply fn_ne_append
  rw [String.length_append]
  have h5 : ".part".length = 5 := rfl
  omega

/-- The merge-staging name differs from every part-file name. -/
theorem temp_ne_part (fn : String) (i : Nat) : fn ++ ".temp" ≠ partName fn i := by
  intro h
  rw [partName, String.append_assoc] at h
  have h2 : ".temp".data = (".part" ++ toString i).data :=
    List.append_cancel_left (by
      have := congrArg String.data h
      rwa [String.data_append, String.data_append] at this)
  rw [String.data_append] at h2
  have e1 : ".temp".data = ['.', 't', 'e', 'm', 'p'] := rfl
  have e2 : ".part".data = ['.', 'p', 'a', 'r', 't'] := rfl
  rw [e1, e2] at h2
  simp only [List.cons_append] at h2
  injection h2 with _ h3
  injection h3 with h4 _
  exact absurd h4 (by decide)

/-- Removing any file after writing any file preserves absence of an
uninvolved path (`p` need only differ from the written path). -/
theorem fsRemove_fsWrite_none {fs : FS} {tkey rkey p : FPath} {v : List Nat}
    (hp : p ≠ tkey) (h : fs p = none) : fsRemove (fsWrite fs tkey v) rkey p = none := by
  unfold fsRemove fsWrite
  by_cases hr : p = rkey <;> simp [hr, hp, h]

/-- The merge loop never touches a path whose file name is neither the
staging name nor a part name. -/
theorem merge_loop_untouched (dp cwd fn : String) (l : List Nat) (fs : FS) (k : FPath)
    (hk1 : k.2 ≠ fn ++ ".temp") (hk2 : ∀ j, k.2 ≠ partName fn j) :
    (merge_loop dp cwd fn fs l).2 k = fs k := by
  induction l generalizing fs with
  | nil => rfl
  | cons i rest ih =>
    have hkt : k ≠ ((dp : String), fn ++ ".temp") := fun h => hk1 (congrArg Prod.snd h)
    have hkp1 : k ≠ ((dp : String), partName fn i) := fun h => hk2 i (congrArg Prod.snd h)
    have hkp2 : k ≠ ((cwd : String), partName fn i) := fun h => hk2 i (congrArg Prod.snd h)
    cases hj1 : fs (dp, partName fn i) with
    | some c =>
      rw [merge_loop]
      simp only [hj1]
      rw [ih]
      unfold fsRemove fsWrite
      simp [hkt, hkp1]
    | none =>
      cases hj2 : fs (cwd, partName fn i) with
      | some c =>
        rw [merge_loop]
        simp only [hj1, hj2]
        rw [ih]
        unfold fsRemove fsWrite
        simp [hkt, hkp2]
      | none =>
        rw [merge_loop]
        simp only [hj1, hj2]

/-- If some listed part is missing from both the download path and the
working directory, the merge loop reports failure: iterations can only
remove files or write the staging file, so the missing part stays
missing until it is reached (or an earlier part already failed). -/
theorem merge_loop_false_of_missing (dp cwd fn : String) (l : List Nat) (fs : FS)
    (i : Nat) (hi : i ∈ l) (h1 : fs (dp, partName fn i) = none)
    (h2 : fs (cwd, partName fn i) = none) :
    (merge_loop dp cwd fn fs l).1 = false := by
  induction l generalizing fs with
  | nil => cases hi
  | cons j rest ih =>
    have hpt1 : ((dp : String), partName fn i) ≠ ((dp : String), fn ++ ".temp") :=
      fun h => temp_ne_part fn i (congrArg Prod.snd h).symm
    have hpt2 : ((cwd : String), partName fn i) ≠ ((dp : String), fn ++ ".temp") :=
      fun h => temp_ne_part fn i (congrArg Prod.snd h).symm
    rcases List.mem_cons.mp hi with rfl | hmem
    · rw [merge_loop]
      simp only [h1, h2]
    · cases hj1 : fs (dp, partName fn j) with
      | some c =>
        rw [merge_loop]
        simp only [hj1]
        exact ih _ hmem (fsRemove_fsWrite_none hpt1 h1) (fsRemove_fsWrite_none hpt2 h2)
      | none =>
        cases hj2 : fs (cwd, partName fn j) with
        | some c =>
          rw [merge_loop]
          simp only [hj1, hj2]
          exact ih _ hmem (fsRemove_fsWrite_none hpt1 h1) (fsRemove_fsWrite_none hpt2 h2)
        | none =>
          rw [merge_loop]
          simp only [hj1, hj2]

/-- A successful merge leaves the final file present at
`<downloadPath>/<filename>`. -/
theorem merge_parts_true_final (fs : FS) (dp cwd fn : String) (n : Nat)
    (h : (merge_parts fs dp cwd fn n).1 = true) :
    ∃ c, (merge_parts fs dp cwd fn n).2 (dp, fn) = some c := by
  unfold merge_parts at h ⊢
  dsimp only at h ⊢
  rcases hml : merge_loop dp cwd fn (fsWrite fs (dp, fn ++ ".temp") []) (List.range n)
    with ⟨b, fs1⟩
  rw [hml] at h
  cases b with
  | false => simp at h
  | true =>
    refine ⟨(fs1 (dp, fn ++ ".temp")).getD [], ?_⟩
    simp [fsWrite]

/-- C6: when the shared exception list is non-empty after the join
barrier, `start()` raises the first recorded failure, the merge is never
attempted (the filesystem is returned unchanged), and every part file
remains on disk. -/
theorem start_raises_first_exception (e : String) (rest : List String)
    (n S : Nat) (dp cwd fn : String) (fs : FS) (net : Except String (List Nat)) :
    start_after_join (e :: rest) n S dp cwd fn fs net = (fs, Except.error e) ∧
    ∀ i : Nat, (start_after_join (e :: rest) n S dp cwd fn fs net).1 (dp, partName fn i) =
      fs (dp, partName fn i) :=
  ⟨rfl, fun _ => rfl⟩

/-- C7 counterexample: with `f.part0` absent from the download path (but a
same-named file in the working directory), `merge_parts` does not fail —
it silently substitutes the working-directory file, succeeds, and writes
the final output. -/
theorem merge_missing_part_counterexample :
    fsMissingDp ("/d", partName "f" 0) = none ∧
    (merge_parts fsMissingDp "/d" "/c" "f" 2).1 = true ∧
    (merge_parts fsMissingDp "/d" "/c" "f" 2).2 ("/d", "f") = some [9, 8, 7] :=
  ⟨rfl, rfl, rfl⟩

/-- C7 amended: if some expected part file is missing from both the
download path and the working directory, `merge_parts` returns `False`
and the final output file `<downloadPath>/<filename>` is not written or
modified. -/
theorem merge_missing_part_amended (dp cwd fn : String) (n : Nat) (fs : FS) (i : Nat)
    (hi : i < n) (h1 : fs (dp, partName fn i) = none)
    (h2 : fs (cwd, partName fn i) = none) :
    (merge_parts fs dp cwd fn n).1 = false ∧
    (merge_parts fs dp cwd fn n).2 (dp, fn) = fs (dp, fn) := by
  have hpt1 : ((dp : String), partName fn i) ≠ ((dp : String), fn ++ ".temp") :=
    fun h => temp_ne_part fn i (congrArg Prod.snd h).symm
  have hpt2 : ((cwd : String), partName fn i) ≠ ((dp : String), fn ++ ".temp") :=
    fun h => temp_ne_part fn i (congrArg Prod.snd h).symm
  have h1' : fsWrite fs (dp, fn ++ ".temp") [] (dp, partName fn i) = none := by
    simp [fsWrite, hpt1, h1]
  have h2' : fsWrite fs (dp, fn ++ ".temp") [] (cwd, partName fn i) = none := by
    simp [fsWrite, hpt2, h2]
  have hfalse := merge_loop_false_of_missing dp cwd fn (List.range n) _ i
    (List.mem_range.mpr hi) h1' h2'
  have hu := merge_loop_untouched dp cwd fn (List.range n)
    (fsWrite fs (dp, fn ++ ".temp") []) (dp, fn) (fn_ne_temp fn) (fun j => fn_ne_part fn j)
  unfold merge_parts
  dsimp only
  rcases hml : merge_loop dp cwd fn (fsWrite fs (dp, fn ++ ".temp") []) (List.range n)
    with ⟨b, fs1⟩
  rw [hml] at hfalse hu
  cases b with
  | true => simp at hfalse
  | false =>
    refine ⟨rfl, ?_⟩
    show fs1 (dp, fn) = fs (dp, fn)
    rw [show fs1 (dp, fn) = fsWrite fs (dp, fn ++ ".temp") [] (dp, fn) from hu]
    have hne : ((dp : String), fn) ≠ ((dp : String), fn ++ ".temp") :=
      fun h => fn_ne_temp fn (congrArg Prod.snd h)
    simp [fsWrite, hne]

/-- Witness for the amended C7 on an empty filesystem with two workers. -/
theorem merge_missing_part_amended_witness :
    (0 : Nat) < 2 ∧ (fun _ => none : FS) ("/d", partName "f" 0) = none ∧
    (fun _ => none : FS) ("/c", partName "f" 0) = none ∧
    ((merge_parts (fun _ => none) "/d" "/c" "f" 2).1 = false ∧
      (merge_parts (fun _ => none) "/d" "/c" "f" 2).2 ("/d", "f") =
        (fun _ => none : FS) ("/d", "f")) :=
  ⟨by norm_num, rfl, rfl,
    merge_missing_part_amended "/d" "/c" "f" 2 (fun _ => none) 0 (by norm_num) rfl rfl⟩

/-- C2 counterexample: the merge succeeds and leaves a final file of size
5 at the download path while the probed size is 10, yet `start()` raises
"Final file not created" instead of re-executing the transfer: the
post-merge verification inspects the bare relative `self.filename`,
which does not exist in the working directory `/c`. -/
theorem size_mismatch_counterexample :
    (merge_parts fsParts "/d" "/c" "f" 2).1 = true ∧
    (merge_parts fsParts "/d" "/c" "f" 2).2 ("/d", "f") = some [0, 1, 2, 3, 4] ∧
    (start_after_join [] 2 10 "/d" "/c" "f" fsParts (Except.ok [])).2 =
      Except.error "Final file not created at /d/f" :=
  ⟨rfl, rfl, rfl⟩

/-- C2 amended: when the download path coincides with the working
directory, a successful merge whose final size differs from the positive
probed size makes `start()` fall back to the single-stream path, and the
task's outcome is that retry's outcome, with the retry's body written to
the final path. -/
theorem size_mismatch_fallback (cwd fn : String) (n S : Nat) (fs : FS)
    (net : Except String (List Nat)) (hn : 1 < n)
    (hok : (merge_parts fs cwd cwd fn n).1 = true) (hS : 0 < S)
    (hmis : (((merge_parts fs cwd cwd fn n).2 (cwd, fn)).getD []).length ≠ S) :
    start_after_join [] n S cwd cwd fn fs net =
      download_single_thread (merge_parts fs cwd cwd fn n).2 cwd fn net ∧
    ∀ body, net = Except.ok body →
      (start_after_join [] n S cwd cwd fn fs net).1 (cwd, fn) = some body := by
  obtain ⟨c, hc⟩ := merge_parts_true_final fs cwd cwd fn n hok
  have hmain : start_after_join [] n S cwd cwd fn fs net =
      download_single_thread (merge_parts fs cwd cwd fn n).2 cwd fn net := by
    unfold start_after_join
    rcases hmp : merge_parts fs cwd cwd fn n with ⟨b, fs1⟩
    rw [hmp] at hok hc hmis
    cases b with
    | false => simp at hok
    | true =>
      rw [if_pos hn]
      dsimp only at hc hmis ⊢
      rw [hc]
      simp only [Option.isSome_some, if_true, Option.getD_some]
      rw [hc, Option.getD_some] at hmis
      rw [if_pos ⟨hS, hmis⟩]
  refine ⟨hmain, ?_⟩
  intro body hb
  rw [hmain, hb]
  simp [download_single_thread, fsWrite]

/-- Witness for the amended C2: merge succeeds with size 2, probed size
is 5, the retry body is delivered and lands at the final path. -/
theorem size_mismatch_fallback_witness :
    (1 : Nat) < 2 ∧ (merge_parts fsPartsCwd "/c" "/c" "f" 2).1 = true ∧ (0 : Nat) < 5 ∧
    (((merge_parts fsPartsCwd "/c" "/c" "f" 2).2 ("/c", "f")).getD []).length ≠ 5 ∧
    (start_after_join [] 2 5 "/c" "/c" "f" fsPartsCwd (Except.ok [7, 7, 7, 7, 7]) =
        download_single_thread (merge_parts fsPartsCwd "/c" "/c" "f" 2).2 "/c" "f"
          (Except.ok [7, 7, 7, 7, 7]) ∧
      ∀ body, (Except.ok [7, 7, 7, 7, 7] : Except String (List Nat)) = Except.ok body →
        (start_after_join [] 2 5 "/c" "/c" "f" fsPartsCwd
            (Except.ok [7, 7, 7, 7, 7])).1 ("/c", "f") = some body) :=
  ⟨by norm_num, rfl, by norm_num, by decide,
    size_mismatch_fallback "/c" "f" 2 5 fsPartsCwd (Except.ok [7, 7, 7, 7, 7])
      (by norm_num) rfl (by norm_num) (by decide)⟩

/-- C10: with range support, a positive size and a planned worker count of
exactly 1, `start()` takes the part-file path: the whole range `[0, S-1]`
is downloaded into `<filename>.part0`, the merge step is skipped (it runs
only when the worker count exceeds 1), the task succeeds, and neither the
final artifact `<downloadPath>/<filename>` nor the staging file is ever
created. -/
theorem single_worker_no_merge (res : Nat → Nat) (dp cwd fn : String) (S ps : Nat)
    (fs : FS) (net : Except String (List Nat)) (hS : 0 < S)
    (hpart : fs (dp, partName fn 0) = none) :
    start_model res dp cwd fn S true 1 ps fs net =
      (fsWrite fs (dp, partName fn 0) (rangeBytes res 0 ((S : Int) - 1)), Except.ok ()) ∧
    (start_model res dp cwd fn S true 1 ps fs net).1 (dp, fn) = fs (dp, fn) ∧
    (start_model res dp cwd fn S true 1 ps fs net).1 (dp, fn ++ ".temp") =
      fs (dp, fn ++ ".temp") := by
  have hmain : start_model res dp cwd fn S true 1 ps fs net =
      (fsWrite fs (dp, partName fn 0) (rangeBytes res 0 ((S : Int) - 1)), Except.ok ()) := by
    unfold start_model
    rw [if_neg (by simp [hS.ne'])]
    dsimp only
    show start_after_join [] 1 S dp cwd fn
      (download_part_fs res dp fn (part_start ps 0) (part_end S 1 ps 0) 0 fs) net = _
    unfold download_part_fs
    dsimp only
    rw [hpart]
    have hps : part_start ps 0 = 0 := by simp [part_start]
    have hpe : part_end S 1 ps 0 = (S : Int) - 1 := by simp [part_end]
    rw [hps, hpe, if_pos (by push_cast; omega)]
    rfl
  refine ⟨hmain, ?_, ?_⟩
  · rw [hmain]
    have hne : ((dp : String), fn) ≠ ((dp : String), partName fn 0) :=
      fun h => fn_ne_part fn 0 (congrArg Prod.snd h)
    simp [fsWrite, hne]
  · rw [hmain]
    have hne : ((dp : String), fn ++ ".temp") ≠ ((dp : String), partName fn 0) :=
      fun h => temp_ne_part fn 0 (congrArg Prod.snd h)
    simp [fsWrite, hne]

/-- Witness for C10: a 3-byte resource downloaded by a single worker on an
empty filesystem. -/
theorem single_worker_no_merge_witness :
    (0 : Nat) < 3 ∧ (fun _ => none : FS) ("/d", partName "f" 0) = none ∧
    (start_model (fun j => j) "/d" "/c" "f" 3 true 1 3 (fun _ => none) (Except.ok []) =
        (fsWrite (fun _ => none) ("/d", partName "f" 0)
          (rangeBytes (fun j => j) 0 ((3 : Int) - 1)), Except.ok ()) ∧
      (start_model (fun j => j) "/d" "/c" "f" 3 true 1 3 (fun _ => none)
          (Except.ok [])).1 ("/d", "f") = (fun _ => none : FS) ("/d", "f") ∧
      (start_model (fun j => j) "/d" "/c" "f" 3 true 1 3 (fun _ => none)
          (Except.ok [])).1 ("/d", "f" ++ ".temp") =
        (fun _ => none : FS) ("/d", "f" ++ ".temp")) :=
  ⟨by norm_num, rfl,
    single_worker_no_merge (fun j => j) "/d" "/c" "f" 3 3 (fun _ => none)
      (Except.ok []) (by norm_num) rfl⟩

/-- Length of the bytes served for `Range: bytes=a-b`. -/
theorem rangeBytes_length (res : Nat → Nat) (a b : Int) :
    (rangeBytes res a b).length = (b - a + 1).toNat := by
  simp [rangeBytes]

/-- Splitting a served range after its first `k` bytes. -/
theorem rangeBytes_split (res : Nat → Nat) (a b : Int) (k : Nat) (ha : 0 ≤ a)
    (hk : (k : Int) ≤ b - a + 1) :
    rangeBytes res a (a + k - 1) ++ rangeBytes res (a + (k : Int)) b =
      rangeBytes res a b := by
  unfold rangeBytes
  have h1 : (a + k - 1 - a + 1).toNat = k := by omega
  have h2 : (b - (a + k) + 1).toNat = (b - a + 1).toNat - k := by omega
  rw [h1, h2]
  set m2 := (b - a + 1).toNat - k with hm
  rw [show (b - a + 1).toNat = k + m2 from by omega, List.range_add, List.map_append]
  congr 1
  rw [List.map_map]
  have h4 : (a + (k : Int)).toNat = a.toNat + k := by omega
  apply List.map_congr_left
  intro x _
  simp only [Function.comp_apply, h4]
  congr 1
  omega

/-- C4 evidence: a part file of 9 bytes for the 10-byte range `[0, 9]` is
one byte short, yet `download_part` takes the early-return path (the file
is left untouched) because the source checks
`start + downloaded >= end` rather than `>= end + 1`, contradicting its
own comment "Check if part is already complete". -/
theorem resume_off_by_one :
    (download_part_fs (fun j => j) "/d" "f" 0 9 0
        (fun p => if p = ("/d", partName "f" 0)
          then some [0, 1, 2, 3, 4, 5, 6, 7, 8] else none))
        ("/d", partName "f" 0) = some [0, 1, 2, 3, 4, 5, 6, 7, 8] ∧
    ([0, 1, 2, 3, 4, 5, 6, 7, 8] : List Nat).length < 9 - 0 + 1 :=
  ⟨rfl, by decide⟩

/-- C5 counterexample: resuming the range `[0, 9]` with a correct 9-byte
prefix already on disk leaves the part file at 9 bytes (the early return
fires one byte early), while a one-pass download of the same range yields
10 bytes — the contents differ. -/
theorem resume_identity_counterexample :
    (download_part_fs (fun j => j) "/d" "f" 0 9 0
        (fun p => if p = ("/d", partName "f" 0)
          then some [0, 1, 2, 3, 4, 5, 6, 7, 8] else none))
        ("/d", partName "f" 0) = some [0, 1, 2, 3, 4, 5, 6, 7, 8] ∧
    (download_part_fs (fun j => j) "/d" "f" 0 9 0 (fun _ => none))
        ("/d", partName "f" 0) = some [0, 1, 2, 3, 4, 5, 6, 7, 8, 9] ∧
    ([0, 1, 2, 3, 4, 5, 6, 7, 8] : List Nat) ≠ [0, 1, 2, 3, 4, 5, 6, 7, 8, 9] :=
  ⟨rfl, rfl, by decide⟩

/-- C5 amended: for a prefix of `k` bytes already on disk with
`k ≠ end - start` (the off-by-one spot: at `k = end - start` the worker
early-returns one byte short), the resumed download requests bytes from
`start + k` onward, appends them, and the resulting part-file content is
byte-for-byte the full range — identical to a one-pass download. -/
theorem resume_identity (res : Nat → Nat) (dp fn : String) (start_ end_ : Int)
    (k i : Nat) (fs : FS) (h0 : 0 ≤ start_) (h1 : start_ ≤ end_)
    (hk : (k : Int) ≤ end_ - start_ + 1) (hne : (k : Int) ≠ end_ - start_)
    (hfs : fs (dp, partName fn i) = some (rangeBytes res start_ (start_ + k - 1))) :
    (download_part_fs res dp fn start_ end_ i fs) (dp, partName fn i) =
      some (rangeBytes res start_ end_) := by
  unfold download_part_fs
  rw [hfs]
  dsimp only
  have hlen : ((rangeBytes res start_ (start_ + k - 1)).length : Int) = k := by
    rw [rangeBytes_length]; omega
  by_cases hge :
      start_ + ((rangeBytes res start_ (start_ + k - 1)).length : Int) ≥ end_
  · rw [if_pos hge]
    rw [hlen] at hge
    have hkeq : start_ + (k : Int) - 1 = end_ := by omega
    rw [hfs, hkeq]
  · rw [if_neg hge]
    rw [hlen] at hge ⊢
    simp only [fsWrite, if_pos rfl]
    rw [rangeBytes_split res start_ end_ k h0 hk]
    simp

/-- Witness for the amended C5: range `[0, 9]`, 3 bytes already on disk,
resumed download equals the full 10-byte range. -/
theorem resume_identity_witness :
    (0 : Int) ≤ 0 ∧ (0 : Int) ≤ 9 ∧ ((3 : Nat) : Int) ≤ 9 - 0 + 1 ∧
    ((3 : Nat) : Int) ≠ 9 - 0 ∧
    (fun p => if p = ("/d", partName "f" 0) then some [0, 1, 2] else none : FS)
        ("/d", partName "f" 0) =
      some (rangeBytes (fun j => j) 0 (0 + (3 : Nat) - 1)) ∧
    (download_part_fs (fun j => j) "/d" "f" 0 9 0
        (fun p => if p = ("/d", partName "f" 0) then some [0, 1, 2] else none))
        ("/d", partName "f" 0) = some (rangeBytes (fun j => j) 0 9) :=
  ⟨by norm_num, by norm_num, by norm_num, by norm_num, rfl,
    resume_identity (fun j => j) "/d" "f" 0 9 3 0
      (fun p => if p = ("/d", partName "f" 0) then some [0, 1, 2] else none)
      (by norm_num) (by norm_num) (by norm_num) (by norm_num) rfl⟩

/-- Auxiliary induction for C9: from any retry-counter state `r` with all
remaining attempts failing and too few bytes delivered to finish the
range, the loop runs the remaining `MAX_RETRIES - r` attempts, sleeps the
fixed delay between consecutive attempts, and records exactly the last
attempt's failure. -/
theorem retry_loop_all_fail (attempts : Nat → Attempt) (errs : Nat → String) (len : Nat)
    (h : ∀ k, k < MAX_RETRIES → (attempts k).failure = some (errs k)) :
    ∀ fuel r d ds, r + fuel = MAX_RETRIES → 0 < fuel →
      d + deliveredSum attempts r fuel < len →
      download_part_retry attempts len fuel d r ds =
        ⟨d + deliveredSum attempts r fuel, [errs (MAX_RETRIES - 1)],
          ds ++ List.replicate (fuel - 1) RETRY_DELAY⟩ := by
  intro fuel
  induction fuel with
  | zero => intro r d ds _ h2 _; exact absurd h2 (lt_irrefl 0)
  | succ f ih =>
    intro r d ds hrf hpos hsum
    have hr : r < MAX_RETRIES := by omega
    have hdsum : 0 ≤ deliveredSum attempts r (f + 1) := Nat.zero_le _
    have hd : d < len := by omega
    rw [download_part_retry, if_pos ⟨hd, hr⟩, h r hr]
    dsimp only
    cases f with
    | zero =>
      rw [if_pos (by omega : r + 1 ≥ MAX_RETRIES)]
      have hr9 : r = MAX_RETRIES - 1 := by omega
      subst hr9
      simp [deliveredSum]
    | succ f2 =>
      rw [if_neg (by omega : ¬ r + 1 ≥ MAX_RETRIES)]
      have hsum' :
          d + (attempts r).delivered + deliveredSum attempts (r + 1) (f2 + 1) < len := by
        simp only [deliveredSum] at hsum ⊢
        omega
      rw [ih (r + 1) (d + (attempts r).delivered) (ds ++ [RETRY_DELAY]) (by omega)
        (by omega) hsum']
      simp only [deliveredSum, PartLoopResult.mk.injEq]
      refine ⟨by omega, trivial, ?_⟩
      simp [List.replicate_succ]

/-- C9: when every network attempt fails (after delivering too few bytes
in total to finish the range), the worker makes exactly `MAX_RETRIES`
attempts, sleeping the fixed `RETRY_DELAY` between consecutive attempts
(`MAX_RETRIES - 1` equal delays — no exponential backoff), then appends
exactly the last attempt's failure to the shared exception list and
returns without raising and without completing the range. -/
theorem retry_exhaustion (attempts : Nat → Attempt) (errs : Nat → String) (len : Nat)
    (h : ∀ k, k < MAX_RETRIES → (attempts k).failure = some (errs k))
    (hsum : deliveredSum attempts 0 MAX_RETRIES < len) :
    download_part_retry attempts len MAX_RETRIES 0 0 [] =
      ⟨deliveredSum attempts 0 MAX_RETRIES, [errs (MAX_RETRIES - 1)],
        List.replicate (MAX_RETRIES - 1) RETRY_DELAY⟩ := by
  have hmain := retry_loop_all_fail attempts errs len h MAX_RETRIES 0 0 []
    (Nat.zero_add _) (by norm_num [MAX_RETRIES]) (by simpa using hsum)
  simpa using hmain

/-- Witness for C9: every attempt fails with message "boom" and delivers
nothing, on a 1-byte range. -/
theorem retry_exhaustion_witness :
    (∀ k, k < MAX_RETRIES →
      ((fun _ => (⟨0, some "boom"⟩ : Attempt)) k).failure = some ((fun _ => "boom") k)) ∧
    deliveredSum (fun _ => ⟨0, some "boom"⟩) 0 MAX_RETRIES < 1 ∧
    download_part_retry (fun _ => ⟨0, some "boom"⟩) 1 MAX_RETRIES 0 0 [] =
      ⟨deliveredSum (fun _ => ⟨0, some "boom"⟩) 0 MAX_RETRIES,
        [(fun _ : Nat => "boom") (MAX_RETRIES - 1)],
        List.replicate (MAX_RETRIES - 1) RETRY_DELAY⟩ :=
  ⟨fun _ _ => rfl, by decide,
    retry_exhaustion (fun _ => ⟨0, some "boom"⟩) (fun _ => "boom") 1
      (fun _ _ => rfl) (by decide)⟩

/-- C3 evidence: `HEAD` answers 403; the 1-byte ranged fallback `GET`
answers 206 with `Content-Length: 1` (its body length, as HTTP mandates
for a one-byte partial response) and `Content-Range: bytes 0-0/100`
(the resource's full byte count is 100).  The probe succeeds with range
support true, but `file_size` is set to 1 — the fallback body length from
`Content-Length` — not 100: the `Content-Range` total is never consulted
on this path (and the `_extract_file_size` helper also prefers
`Content-Length`, as the second conjunct records), so the resource's full
byte count is unobtainable from this code. -/
theorem probe_403_fallback_size :
    probe_init ⟨403, none, none, ""⟩ ⟨206, some 1, some 100, ""⟩
        ⟨206, some 1, some 100, ""⟩ ⟨206, some 1, some 100, ""⟩ 8 8 =
      Except.ok ⟨1, true, 2⟩ ∧
    extract_file_size ⟨206, some 1, some 100, ""⟩ = 1 ∧ (1 : Nat) ≠ 100 :=
  ⟨rfl, rfl, by norm_num⟩
